import Mathlib

/-!
Verification of the Google-Sheets WASM foreign-data-wrapper connector
(`src/lib.rs`): a shallow embedding of its scan lifecycle
(`init`, `begin_scan`, `iter_scan`, `end_scan`), its cell mapper and its
date-literal decoder (`parse_date_from_interface`), followed by theorems
about the embedded definitions.

External collaborators (the HTTP transport, the JSON text parser
`serde_json::from_str`, the host options accessors and the host calendar
parser `time::parse_from_str`) are out of scope of the source; they are
either taken as function parameters of the lifecycle operations or
modelled from the specification, as noted on each definition.
-/

namespace SheetsFdw

/-- JSON values as produced by the external JSON parser (`serde_json::Value`).
Numbers are modelled as integers: no claim under verification depends on
fractional values, only on whether a value is numeric at all. -/
inductive Json where
  | null : Json
  | bool (b : Bool) : Json
  | num (n : Int) : Json
  | str (s : String) : Json
  | arr (elems : List Json) : Json
  | obj (fields : List (String × Json)) : Json

/-- Numeric value of a decimal digit character. -/
def digitVal (c : Char) : Nat := c.toNat - 48

/-- Decimal digit character for a value below 10. -/
def digitChar (d : Nat) : Char := Char.ofNat (48 + d)

/-- Value of a big-endian list of decimal digit characters. -/
def digitsVal (l : List Char) : Nat :=
  l.foldl (fun acc c => acc * 10 + digitVal c) 0

/-- Little-endian decimal digits of a positive number, with enough fuel;
structural in the fuel so that the kernel evaluates it. -/
def natDigitsLEFuel : Nat → Nat → List Char
  | 0, _ => []
  | _, 0 => []
  | fuel + 1, n + 1 => digitChar ((n + 1) % 10) :: natDigitsLEFuel fuel ((n + 1) / 10)

/-- Little-endian decimal digits of a positive number. -/
def natDigitsLE (n : Nat) : List Char :=
  natDigitsLEFuel n n

/-- Big-endian decimal digit characters of a number (Rust `{}` formatting
of an unsigned integer). -/
def natDigits (n : Nat) : List Char :=
  if n = 0 then [digitChar 0] else (natDigitsLE n).reverse

/-- Zero-padded decimal rendering to a minimum width, as the source's
Rust format specifiers `{:04}` and `{:02}` produce. -/
def padDigits (w n : Nat) : List Char :=
  List.replicate (w - (natDigits n).length) (digitChar 0) ++ natDigits n

/-- Parse a list of characters as an unsigned decimal integer, the
fallible `str::parse` used by the decoder on regex captures: succeeds
exactly on nonempty all-digit input. -/
def parseNat? (l : List Char) : Option Nat :=
  if l ≠ [] ∧ l.all Char.isDigit then some (digitsVal l) else none

/-- Split a character list on a separator character. -/
def splitCharAux (sep : Char) : List Char → List Char → List (List Char)
  | [], acc => [acc.reverse]
  | c :: rest, acc =>
    if c = sep then acc.reverse :: splitCharAux sep rest []
    else splitCharAux sep rest (c :: acc)

/-- Split a character list on a separator character (as Rust
`str::split` / `serde_json`'s pointer tokenisation do). -/
def splitChar (sep : Char) (l : List Char) : List (List Char) :=
  splitCharAux sep l []

/-- Array-index token parser of `serde_json`'s JSON pointer: nonempty,
all digits, and no leading zero unless the token is exactly `0`. -/
def parseIndex (tok : List Char) : Option Nat :=
  match tok with
  | [] => none
  | [c] => if c.isDigit then some (digitVal c) else none
  | c :: rest =>
    if c.isDigit ∧ c ≠ digitChar 0 ∧ rest.all Char.isDigit then
      some (digitsVal (c :: rest))
    else none

/-- Unescape a JSON-pointer reference token (`~1` → `/`, `~0` → `~`). -/
def unescapeTok : List Char → List Char
  | [] => []
  | c :: c2 :: rest =>
    if c = Char.ofNat 126 ∧ c2 = digitChar 1 then '/' :: unescapeTok rest
    else if c = Char.ofNat 126 ∧ c2 = digitChar 0 then Char.ofNat 126 :: unescapeTok rest
    else c :: unescapeTok (c2 :: rest)
  | [c] => [c]

/-- First value bound to a key in a JSON object's field list. -/
def lookupField (fields : List (String × Json)) (k : String) : Option Json :=
  match fields with
  | [] => none
  | (k2, v) :: rest => if k2 = k then some v else lookupField rest k

/-- Navigation step of the JSON pointer over parsed reference tokens. -/
def navigate (j : Json) (toks : List (List Char)) : Option Json :=
  match toks with
  | [] => some j
  | tok :: rest =>
    match j with
    | Json.obj fields =>
      match lookupField fields (String.mk (unescapeTok tok)) with
      | some v => navigate v rest
      | none => none
    | Json.arr elems =>
      match parseIndex tok with
      | some i =>
        match elems.get? i with
        | some v => navigate v rest
        | none => none
      | none => none
    | _ => none

/-- JSON pointer lookup (`serde_json::Value::pointer`): an empty path
returns the value itself, any other path must start with `/` and is split
on `/` into reference tokens. -/
def Json.pointer (j : Json) (path : String) : Option Json :=
  match path.data with
  | [] => some j
  | '/' :: rest => navigate j (splitChar '/' rest)
  | _ => none

/-- Rust `Value::as_array`. -/
def Json.asArray : Json → Option (List Json)
  | Json.arr elems => some elems
  | _ => none

/-- Rust `Value::as_str`. -/
def Json.asStr : Json → Option String
  | Json.str s => some s
  | _ => none

/-- Rust `Value::as_f64`: some exactly on JSON numbers (numbers are
modelled as integers, see `Json`). -/
def Json.asF64 : Json → Option Int
  | Json.num n => some n
  | _ => none

/-- Calendar date, the representation behind the connector's date cell.
Modelled from the spec: the host `time::parse_from_str` turns a formatted
date string into a normalized calendar-date value; the year, month and
day triple is that value's observable content. -/
structure CalDate where
  year : Nat
  month : Nat
  day : Nat
  deriving DecidableEq

/-- Leap-year test of the Gregorian calendar. -/
def isLeap (y : Nat) : Bool :=
  y % 4 = 0 ∧ (y % 100 ≠ 0 ∨ y % 400 = 0)

/-- Number of days of a month in the Gregorian calendar. -/
def daysInMonth (y m : Nat) : Nat :=
  if m = 2 then (if isLeap y then 29 else 28)
  else if m = 4 ∨ m = 6 ∨ m = 9 ∨ m = 11 then 30
  else 31

/-- Modelled from the spec: the host calendar parser
`time::parse_from_str(s, "%Y-%m-%d")`, which is not part of the source
under `src/`. It accepts a dash-separated numeric year-month-day string
that denotes an existing calendar date and rejects everything else. -/
def time_parse_from_str (s : String) : Option CalDate :=
  match splitChar '-' s.data with
  | [ys, ms, ds] => do
    let y ← parseNat? ys
    let m ← parseNat? ms
    let d ← parseNat? ds
    if 1 ≤ m ∧ m ≤ 12 ∧ 1 ≤ d ∧ d ≤ daysInMonth y m then
      some ⟨y, m, d⟩
    else
      none
  | _ => none

/-- Target cell values (`supabase::wrappers::types::Cell`), restricted to
the variants this connector produces: 64-bit integer, string, date. -/
inductive Cell where
  | i64 (n : Int) : Cell
  | str (s : String) : Cell
  | date (d : CalDate) : Cell
  deriving DecidableEq

/-- Take exactly `n` decimal digit characters from the front of a list,
returning them and the remainder (the `\d{4}` part of the decoder's
regular expression). -/
def takeExactDigits : Nat → List Char → Option (List Char × List Char)
  | 0, l => some ([], l)
  | _ + 1, [] => none
  | n + 1, c :: rest =>
    if c.isDigit then
      (takeExactDigits n rest).map (fun p => (c :: p.1, p.2))
    else none

/-- Match `\d{1,2}` immediately followed by the separator `sep`, with the
greedy backtracking the regex engine applies: two digits are preferred,
one digit is the fallback. Returns the digits and the input remaining
after the separator. -/
def digits12Then (sep : Char) : List Char → Option (List Char × List Char)
  | c1 :: c2 :: c3 :: rest =>
    if c1.isDigit ∧ c2.isDigit ∧ c3 = sep then some ([c1, c2], rest)
    else if c1.isDigit ∧ c2 = sep then some ([c1], c3 :: rest)
    else none
  | [c1, c2] => if c1.isDigit ∧ c2 = sep then some ([c1], []) else none
  | _ => none

/-- Try to match the decoder's pattern
`Date\((\d{4}),(\d{1,2}),(\d{1,2})\)` at the head of the input, returning
the three captures. -/
def tryCapturesAt (l : List Char) : Option (List Char × List Char × List Char) :=
  match l with
  | 'D' :: 'a' :: 't' :: 'e' :: '(' :: rest =>
    match takeExactDigits 4 rest with
    | some (ys, rest1) =>
      match rest1 with
      | ',' :: rest2 =>
        match digits12Then ',' rest2 with
        | some (ms, rest3) =>
          match digits12Then ')' rest3 with
          | some (ds, _) => some (ys, ms, ds)
          | none => none
        | none => none
      | _ => none
    | none => none
  | _ => none

/-- Leftmost match of the decoder's pattern anywhere in the input, the
semantics of `Regex::captures`. -/
def findCaptures : List Char → Option (List Char × List Char × List Char)
  | [] => none
  | c :: rest =>
    match tryCapturesAt (c :: rest) with
    | some caps => some caps
    | none => findCaptures rest

/-- The source's date-literal decoder `parse_date_from_interface`: search
the input for `Date\((\d{4}),(\d{1,2}),(\d{1,2})\)`, parse the captures,
add one to both the month and the day, format the triple zero-padded as
`YYYY-MM-DD` and hand it to the host calendar parser; any failure yields
`none`. -/
def parse_date_from_interface (src : String) : Option Cell :=
  match findCaptures src.data with
  | none => none
  | some (ys, ms, ds) => do
    let year ← parseNat? ys
    let month0 ← parseNat? ms
    let day0 ← parseNat? ds
    let month := month0 + 1
    let day := day0 + 1
    let formatted := String.mk
      (padDigits 4 year ++ '-' :: (padDigits 2 month ++ '-' :: padDigits 2 day))
    match time_parse_from_str formatted with
    | some d => some (Cell.date d)
    | none => none

/-- Requested column types (`supabase::wrappers::types::TypeOid`),
covering the variants the connector's `iter_scan` distinguishes: the
three supported types and representatives of the unsupported rest. -/
inductive TypeOid where
  | boolTy : TypeOid
  | i8 : TypeOid
  | i16 : TypeOid
  | i32 : TypeOid
  | f32 : TypeOid
  | f64 : TypeOid
  | i64 : TypeOid
  | numeric : TypeOid
  | string : TypeOid
  | date : TypeOid
  | timestamp : TypeOid
  | json : TypeOid
  deriving DecidableEq

/-- A requested target column: 1-based ordinal, name and requested type
(`ctx.get_columns()` elements). -/
structure Column where
  num : Nat
  name : String
  oid : TypeOid
  deriving DecidableEq

/-- Connector state, the fields of the `ExampleFdw` singleton. -/
structure FdwState where
  base_url : String
  src_rows : List Json
  src_idx : Nat

/-- An outbound HTTP request (`supabase::wrappers::http::Request`). -/
structure HttpRequest where
  method : String
  url : String
  headers : List (String × String)
  body : String

/-- Modelled from the spec: the host options accessor
`OptionsType::require_or`, out of scope of `src/` — the option's value
when present, the given default otherwise, never failing. -/
def require_or (opts : List (String × String)) (k dflt : String) : String :=
  match opts.lookup k with
  | some v => v
  | none => dflt

/-- Error message of the host options accessor. Modelled from the spec:
`require` fails with a MissingOption error naming the option. -/
def missingOptionMsg (k : String) : String :=
  "missing required option: " ++ k

/-- Modelled from the spec: the host options accessor
`OptionsType::require`, out of scope of `src/` — the option's value when
present, a MissingOption error naming the option otherwise. -/
def require (opts : List (String × String)) (k : String) : Except String String :=
  match opts.lookup k with
  | some v => Except.ok v
  | none => Except.error (missingOptionMsg k)

/-- The fixed default endpoint of `init`. -/
def defaultBaseUrl : String := "https://docs.google.com/spreadsheets/d"

/-- The source's `init`: create a fresh default state, then set `base_url`
from the server options with the fixed default endpoint as fallback.
Always returns success. -/
def init (opts : List (String × String)) : FdwState × Except String Unit :=
  ({ base_url := require_or opts "base_url" defaultBaseUrl
     src_rows := []
     src_idx := 0 },
   Except.ok ())

/-- The request URL built by `begin_scan`:
`format!("{}/{}/gviz/tq?tqx=out:json", this.base_url, sheet_id)`. -/
def mkUrl (base_url sheet_id : String) : String :=
  base_url ++ "/" ++ sheet_id ++ "/gviz/tq?tqx=out:json"

/-- The request built by `begin_scan`: GET on the sheet URL with the two
fixed headers and an empty body. -/
def mkRequest (base_url sheet_id : String) : HttpRequest :=
  { method := "GET"
    url := mkUrl base_url sheet_id
    headers := [("user-agent", "Sheets FDW"), ("x-datasource-auth", "true")]
    body := "" }

/-- The fixed textual prefix `begin_scan` strips from the response body:
the five characters `)]}` followed by an apostrophe and a newline. -/
def respMarker : List Char :=
  [')', ']', Char.ofNat 125, Char.ofNat 39, Char.ofNat 10]

/-- Rust `str::strip_prefix` on character lists. -/
def stripLeading : List Char → List Char → Option (List Char)
  | [], l => some l
  | _ :: _, [] => none
  | p :: ps, c :: cs => if c = p then stripLeading ps cs else none

/-- Outcome of `begin_scan`. Besides success and a returned error, the
source can terminate abnormally: `.crash` models the `unwrap()` panic on
line 125 of `src/lib.rs`. -/
inductive BeginOutcome where
  | ok : BeginOutcome
  | err (msg : String) : BeginOutcome
  | crash : BeginOutcome
  deriving DecidableEq

/-- The source's `begin_scan`. The HTTP transport and the JSON text
parser are external collaborators, passed as the function parameters
`fetch` (the response body of `http::get`, or a transport error) and
`parse` (`serde_json::from_str`, with parse errors already rendered as
strings). Steps, in source order: require `sheet_id` from the table
options, build the URL and request, fetch, strip the fixed prefix (else
`invalid response`), parse the remainder, look up `/table/rows` (else
`cannot get rows from response`), and `unwrap()` the value as an array —
a panic, not an error, when it is present but not an array. On success
the rows replace `src_rows`; `src_idx` is not touched. -/
def begin_scan (opts : List (String × String))
    (fetch : HttpRequest → Except String String)
    (parse : String → Except String Json)
    (st : FdwState) : BeginOutcome × FdwState :=
  match require opts "sheet_id" with
  | Except.error e => (BeginOutcome.err e, st)
  | Except.ok sheet_id =>
    match fetch (mkRequest st.base_url sheet_id) with
    | Except.error e => (BeginOutcome.err e, st)
    | Except.ok body =>
      match stripLeading respMarker body.data with
      | none => (BeginOutcome.err "invalid response", st)
      | some rest =>
        match parse (String.mk rest) with
        | Except.error e => (BeginOutcome.err e, st)
        | Except.ok resp_json =>
          match resp_json.pointer "/table/rows" with
          | none => (BeginOutcome.err "cannot get rows from response", st)
          | some v =>
            match v.asArray with
            | none => (BeginOutcome.crash, st)
            | some rows => (BeginOutcome.ok, { st with src_rows := rows })

/-- The JSON-pointer path `iter_scan` uses for a column:
`format!("/c/{}/v", tgt_col_num - 1)`. -/
def cellPath (num : Nat) : String :=
  String.mk ('/' :: 'c' :: '/' :: natDigits (num - 1) ++ ['/', 'v'])

/-- The per-cell conversion of `iter_scan`'s match on the column type:
I64 from any numeric value, String from string values, Date through the
date-literal decoder (with `""` substituted for non-string values), and
an error naming the column for every other requested type. -/
def mapCell (colName : String) (oid : TypeOid) (src : Json) :
    Except String (Option Cell) :=
  match oid with
  | TypeOid.i64 => Except.ok (src.asF64.map Cell.i64)
  | TypeOid.string => Except.ok (src.asStr.map Cell.str)
  | TypeOid.date =>
    Except.ok (parse_date_from_interface (src.asStr.getD ""))
  | _ => Except.error ("column " ++ colName ++ " data type is not supported")

/-- The column loop of `iter_scan` over one source row: for each target
column look up `/c/(num-1)/v`; push the mapped cell when the lookup
succeeds (aborting the call on a mapping error), push an absent cell when
it does not. -/
def iterRow (cols : List Column) (srcRow : Json) :
    Except String (List (Option Cell)) :=
  match cols with
  | [] => Except.ok []
  | c :: rest =>
    match srcRow.pointer (cellPath c.num) with
    | some src =>
      match mapCell c.name c.oid src with
      | Except.ok cell => (iterRow rest srcRow).map (fun l => cell :: l)
      | Except.error e => Except.error e
    | none => (iterRow rest srcRow).map (fun l => none :: l)

/-- Outcome of one `iter_scan` call: a produced row of cells
(`Ok(Some(0))` with the pushed cells), exhaustion (`Ok(None)`), or an
error. -/
inductive IterOutcome where
  | row (cells : List (Option Cell)) : IterOutcome
  | done : IterOutcome
  | err (msg : String) : IterOutcome
  deriving DecidableEq

/-- The source's `iter_scan`: when `src_idx >= src_rows.len()` signal
exhaustion without touching the state; otherwise map the current source
row through the column loop, and on success advance `src_idx` by one. -/
def iter_scan (cols : List Column) (st : FdwState) : IterOutcome × FdwState :=
  if st.src_rows.length ≤ st.src_idx then (IterOutcome.done, st)
  else
    match iterRow cols (st.src_rows.getD st.src_idx Json.null) with
    | Except.error e => (IterOutcome.err e, st)
    | Except.ok cells =>
      (IterOutcome.row cells, { st with src_idx := st.src_idx + 1 })

/-- The source's `re_scan`: always an error, state untouched. -/
def re_scan (st : FdwState) : Except String Unit × FdwState :=
  (Except.error "re_scan on foreign table is not supported", st)

/-- The source's `end_scan`: clear `src_rows` (and nothing else) and
succeed. -/
def end_scan (st : FdwState) : Except String Unit × FdwState :=
  (Except.ok (), { st with src_rows := [] })

/-- Number of consecutive `iter_scan` calls that produce a row before the
first call that does not, starting from `st`, observed for at most `fuel`
calls. -/
def countProduced (cols : List Column) (st : FdwState) : Nat → Nat
  | 0 => 0
  | fuel + 1 =>
    match iter_scan cols st with
    | (IterOutcome.row _, st2) => 1 + countProduced cols st2 fuel
    | _ => 0

/-! Concrete collaborator behaviours and states used to instantiate the
theorems below. The HTTP transport and the JSON text parser are external
collaborators, so a concrete scenario fixes one plausible behaviour for
each: a fetch returning a correctly prefixed body, and a parser mapping
that body to a parsed response value. -/

/-- A source row with two populated cells, shaped like the response rows
documented in the source (`{"c": [{"v": ...}, ...]}`). -/
def exRow : Json :=
  Json.obj [("c", Json.arr
    [Json.obj [("v", Json.num 1)], Json.obj [("v", Json.str "abc")]])]

/-- A well-formed parsed response: one row under `/table/rows`. -/
def exTableJson : Json :=
  Json.obj [("table", Json.obj [("rows", Json.arr [exRow])])]

/-- A malformed parsed response: `/table/rows` present but not an array. -/
def exNonArrayJson : Json :=
  Json.obj [("table", Json.obj [("rows", Json.num 5)])]

/-- A response body carrying the required prefix. -/
def exBody : String := String.mk (respMarker ++ "payload".data)

/-- A transport returning the well-prefixed body for every request. -/
def exFetch : HttpRequest → Except String String :=
  fun _ => Except.ok exBody

/-- A transport returning a body that lacks the required prefix. -/
def exNoPrefixFetch : HttpRequest → Except String String :=
  fun _ => Except.ok "nope"

/-- A JSON parser producing the well-formed response value. -/
def exParse : String → Except String Json :=
  fun _ => Except.ok exTableJson

/-- A JSON parser producing the malformed response value. -/
def exNonArrayParse : String → Except String Json :=
  fun _ => Except.ok exNonArrayJson

/-- Table options carrying the required `sheet_id`. -/
def exOpts : List (String × String) := [("sheet_id", "sheet1")]

/-- The state created by `init` with empty server options. -/
def exInit : FdwState := (init []).1

/-- The state after a first successful `begin_scan` from `exInit`. -/
def exScan1 : FdwState := (begin_scan exOpts exFetch exParse exInit).2

/-- The state after consuming the single fetched row of `exScan1`. -/
def exConsumed : FdwState := (iter_scan [] exScan1).2

/-- The state after `end_scan` closed the first scan. -/
def exAfterEnd : FdwState := (end_scan exConsumed).2

/-! Supporting lemmas about decimal rendering and parsing. -/

theorem digitVal_digitChar (d : Nat) (h : d < 10) : digitVal (digitChar d) = d := by
  interval_cases d <;> decide

theorem isDigit_digitChar (d : Nat) (h : d < 10) : (digitChar d).isDigit := by
  interval_cases d <;> decide

theorem digitsVal_append_singleton (l : List Char) (c : Char) :
    digitsVal (l ++ [c]) = digitsVal l * 10 + digitVal c := by
  simp [digitsVal, List.foldl_append]

theorem digitsVal_natDigitsLEFuel_reverse (fuel : Nat) :
    ∀ n : Nat, n ≤ fuel → digitsVal (natDigitsLEFuel fuel n).reverse = n := by
  induction fuel with
  | zero =>
    intro n hn
    interval_cases n
    decide
  | succ fuel ih =>
    intro n hn
    match n with
    | 0 => simp [natDigitsLEFuel, digitsVal]
    | m + 1 =>
      have hdiv : (m + 1) / 10 ≤ fuel := by
        have := Nat.div_lt_self (Nat.succ_pos m) (by omega : 1 < 10)
        omega
      calc digitsVal (natDigitsLEFuel (fuel + 1) (m + 1)).reverse
          = digitsVal ((natDigitsLEFuel fuel ((m + 1) / 10)).reverse
              ++ [digitChar ((m + 1) % 10)]) := by
            simp [natDigitsLEFuel]
        _ = (m + 1) / 10 * 10 + (m + 1) % 10 := by
            rw [digitsVal_append_singleton, ih _ hdiv,
              digitVal_digitChar _ (Nat.mod_lt _ (by omega))]
        _ = m + 1 := by omega

theorem digitsVal_natDigits (n : Nat) : digitsVal (natDigits n) = n := by
  by_cases h : n = 0
  · subst h; decide
  · simp only [natDigits, h, if_false, natDigitsLE]
    exact digitsVal_natDigitsLEFuel_reverse n n le_rfl

theorem natDigitsLEFuel_all_digits (fuel : Nat) :
    ∀ n : Nat, ∀ c ∈ natDigitsLEFuel fuel n, c.isDigit := by
  induction fuel with
  | zero => intro n c hc; simp [natDigitsLEFuel] at hc
  | succ fuel ih =>
    intro n c hc
    match n with
    | 0 => simp [natDigitsLEFuel] at hc
    | m + 1 =>
      simp only [natDigitsLEFuel, List.mem_cons] at hc
      rcases hc with hc | hc
      · subst hc; exact isDigit_digitChar _ (Nat.mod_lt _ (by omega))
      · exact ih _ _ hc

theorem natDigits_all_digits (n : Nat) : ∀ c ∈ natDigits n, c.isDigit := by
  intro c hc
  by_cases h : n = 0
  · subst h; simp [natDigits] at hc; subst hc; decide
  · simp only [natDigits, h, if_false, natDigitsLE, List.mem_reverse] at hc
    exact natDigitsLEFuel_all_digits n n c hc

theorem natDigits_ne_nil (n : Nat) : natDigits n ≠ [] := by
  by_cases h : n = 0
  · subst h; decide
  · simp only [natDigits, h, if_false, natDigitsLE]
    intro hrev
    have hval := digitsVal_natDigitsLEFuel_reverse n n le_rfl
    rw [hrev] at hval
    exact h (by simpa [digitsVal] using hval.symm)

theorem padDigits_all_digits (w n : Nat) : ∀ c ∈ padDigits w n, c.isDigit := by
  intro c hc
  simp only [padDigits, List.mem_append, List.mem_replicate] at hc
  rcases hc with ⟨_, hc⟩ | hc
  · subst hc; decide
  · exact natDigits_all_digits n c hc

theorem padDigits_ne_nil (w n : Nat) : padDigits w n ≠ [] := by
  simp [padDigits, natDigits_ne_nil n]

theorem digitsVal_replicate_zero (k : Nat) (l : List Char) :
    digitsVal (List.replicate k (digitChar 0) ++ l) = digitsVal l := by
  induction k with
  | zero => simp
  | succ k ih =>
    simpa [digitsVal, List.replicate, digitVal] using ih

theorem parseNat?_of_digits (l : List Char) (h1 : l ≠ [])
    (h2 : ∀ c ∈ l, c.isDigit) : parseNat? l = some (digitsVal l) := by
  simp [parseNat?, h1, List.all_eq_true.mpr fun c hc => h2 c hc]

theorem parseNat?_padDigits (w n : Nat) : parseNat? (padDigits w n) = some n := by
  rw [parseNat?_of_digits _ (padDigits_ne_nil w n) (padDigits_all_digits w n)]
  simp [padDigits, digitsVal_replicate_zero, digitsVal_natDigits]

/-! Supporting lemmas about splitting on a separator. -/

theorem splitCharAux_no_sep (sep : Char) (l : List Char) :
    ∀ acc : List Char, sep ∉ l → splitCharAux sep l acc = [acc.reverse ++ l] := by
  induction l with
  | nil => intro acc _; simp [splitCharAux]
  | cons c rest ih =>
    intro acc h
    have hc : ¬c = sep := fun he => h (by simp [he])
    have hrest : sep ∉ rest := fun hm => h (by simp [hm])
    simp [splitCharAux, hc, ih _ hrest]

theorem splitCharAux_append_sep (sep : Char) (a : List Char) :
    ∀ (b acc : List Char), sep ∉ a →
      splitCharAux sep (a ++ sep :: b) acc =
        (acc.reverse ++ a) :: splitCharAux sep b [] := by
  induction a with
  | nil => intro b acc _; simp [splitCharAux]
  | cons c rest ih =>
    intro b acc h
    have hc : ¬c = sep := fun he => h (by simp [he])
    have hrest : sep ∉ rest := fun hm => h (by simp [hm])
    simp [splitCharAux, hc, ih _ _ hrest]

theorem splitChar_three (sep : Char) (a b c : List Char)
    (ha : sep ∉ a) (hb : sep ∉ b) (hc : sep ∉ c) :
    splitChar sep (a ++ sep :: (b ++ sep :: c)) = [a, b, c] := by
  unfold splitChar
  rw [splitCharAux_append_sep sep a _ _ ha,
    splitCharAux_append_sep sep b _ _ hb,
    splitCharAux_no_sep sep c _ hc]
  simp

theorem not_dash_mem_padDigits (w n : Nat) : '-' ∉ padDigits w n := by
  intro hm
  have := padDigits_all_digits w n '-' hm
  simp at this

/-- The modelled calendar parser on the exact string shape the decoder
formats: it validates the month and day ranges and returns the triple. -/
theorem time_parse_from_str_padded (y m d : Nat) :
    time_parse_from_str (String.mk
        (padDigits 4 y ++ '-' :: (padDigits 2 m ++ '-' :: padDigits 2 d))) =
      (if 1 ≤ m ∧ m ≤ 12 ∧ 1 ≤ d ∧ d ≤ daysInMonth y m then
        some ⟨y, m, d⟩
      else none) := by
  unfold time_parse_from_str
  rw [show (String.mk
      (padDigits 4 y ++ '-' :: (padDigits 2 m ++ '-' :: padDigits 2 d))).data =
      padDigits 4 y ++ '-' :: (padDigits 2 m ++ '-' :: padDigits 2 d) from rfl]
  rw [splitChar_three '-' _ _ _ (not_dash_mem_padDigits 4 y)
    (not_dash_mem_padDigits 2 m) (not_dash_mem_padDigits 2 d)]
  simp [parseNat?_padDigits]

/-! Supporting lemmas about the date-literal pattern matcher. -/

theorem takeExactDigits_append (l : List Char) :
    ∀ rest : List Char, (∀ c ∈ l, c.isDigit) →
      takeExactDigits l.length (l ++ rest) = some (l, rest) := by
  induction l with
  | nil => intro rest _; simp [takeExactDigits]
  | cons c l2 ih =>
    intro rest h
    have hc : c.isDigit := h c (by simp)
    have h2 : ∀ x ∈ l2, x.isDigit := fun x hx => h x (by simp [hx])
    simp [takeExactDigits, hc, ih rest h2]

theorem digits12Then_append (sep : Char) (l tail : List Char)
    (hlen : l.length = 1 ∨ l.length = 2) (hdig : ∀ c ∈ l, c.isDigit)
    (hsep : ¬sep.isDigit) :
    digits12Then sep (l ++ sep :: tail) = some (l, tail) := by
  rcases hlen with h1 | h2
  · obtain ⟨a, rfl⟩ := List.length_eq_one.mp h1
    have ha : a.isDigit := hdig a (by simp)
    match tail with
    | [] => simp [digits12Then, ha, hsep]
    | t :: ts => simp [digits12Then, ha, hsep]
  · obtain ⟨a, b, rfl⟩ := List.length_eq_two.mp h2
    have ha : a.isDigit := hdig a (by simp)
    have hb : b.isDigit := hdig b (by simp)
    simp [digits12Then, ha, hb]

theorem tryCapturesAt_shaped (ys ms ds : List Char)
    (hy4 : ys.length = 4) (hyd : ∀ c ∈ ys, c.isDigit)
    (hm12 : ms.length = 1 ∨ ms.length = 2) (hmd : ∀ c ∈ ms, c.isDigit)
    (hd12 : ds.length = 1 ∨ ds.length = 2) (hdd : ∀ c ∈ ds, c.isDigit) :
    tryCapturesAt ('D' :: 'a' :: 't' :: 'e' :: '(' ::
        (ys ++ ',' :: (ms ++ ',' :: (ds ++ [')'])))) = some (ys, ms, ds) := by
  have htake := takeExactDigits_append ys (',' :: (ms ++ ',' :: (ds ++ [')']))) hyd
  rw [hy4] at htake
  have hms := digits12Then_append ',' ms (ds ++ [')']) hm12 hmd (by decide)
  have hds := digits12Then_append ')' ds [] hd12 hdd (by decide)
  simp only [tryCapturesAt, htake, hms, hds]

/-- End-to-end behaviour of the date-literal decoder on an input that
matches the pattern at position 0: the captured year is kept, month and
day are incremented, and the result is the corresponding calendar date
exactly when the incremented month and day form one. -/
theorem parse_date_from_interface_shaped (ys ms ds : List Char)
    (hy4 : ys.length = 4) (hyd : ∀ c ∈ ys, c.isDigit)
    (hm12 : ms.length = 1 ∨ ms.length = 2) (hmd : ∀ c ∈ ms, c.isDigit)
    (hd12 : ds.length = 1 ∨ ds.length = 2) (hdd : ∀ c ∈ ds, c.isDigit) :
    parse_date_from_interface (String.mk ('D' :: 'a' :: 't' :: 'e' :: '(' ::
        (ys ++ ',' :: (ms ++ ',' :: (ds ++ [')']))))) =
      (if digitsVal ms + 1 ≤ 12 ∧
          digitsVal ds + 1 ≤ daysInMonth (digitsVal ys) (digitsVal ms + 1) then
        some (Cell.date ⟨digitsVal ys, digitsVal ms + 1, digitsVal ds + 1⟩)
      else none) := by
  have hyn : ys ≠ [] := by intro h; rw [h] at hy4; simp at hy4
  have hmn : ms ≠ [] := by
    intro h; rw [h] at hm12; simp at hm12
  have hdn : ds ≠ [] := by
    intro h; rw [h] at hd12; simp at hd12
  unfold parse_date_from_interface
  rw [show (String.mk ('D' :: 'a' :: 't' :: 'e' :: '(' ::
      (ys ++ ',' :: (ms ++ ',' :: (ds ++ [')']))))).data =
      'D' :: 'a' :: 't' :: 'e' :: '(' ::
        (ys ++ ',' :: (ms ++ ',' :: (ds ++ [')']))) from rfl]
  rw [show findCaptures ('D' :: 'a' :: 't' :: 'e' :: '(' ::
      (ys ++ ',' :: (ms ++ ',' :: (ds ++ [')'])))) =
      some (ys, ms, ds) from by
    simp only [findCaptures,
      tryCapturesAt_shaped ys ms ds hy4 hyd hm12 hmd hd12 hdd]]
  simp only [parseNat?_of_digits ys hyn hyd, parseNat?_of_digits ms hmn hmd,
    parseNat?_of_digits ds hdn hdd, Option.bind_eq_bind, Option.some_bind]
  rw [time_parse_from_str_padded (digitsVal ys) (digitsVal ms + 1)
    (digitsVal ds + 1)]
  by_cases hok : digitsVal ms + 1 ≤ 12 ∧
      digitsVal ds + 1 ≤ daysInMonth (digitsVal ys) (digitsVal ms + 1)
  · rw [if_pos (show 1 ≤ digitsVal ms + 1 ∧ digitsVal ms + 1 ≤ 12 ∧
        1 ≤ digitsVal ds + 1 ∧
        digitsVal ds + 1 ≤ daysInMonth (digitsVal ys) (digitsVal ms + 1) by
          omega), if_pos hok]
  · rw [if_neg (show ¬(1 ≤ digitsVal ms + 1 ∧ digitsVal ms + 1 ≤ 12 ∧
        1 ≤ digitsVal ds + 1 ∧
        digitsVal ds + 1 ≤ daysInMonth (digitsVal ys) (digitsVal ms + 1)) by
          omega), if_neg hok]

/-! Supporting lemmas about the scan lifecycle state. -/

/-- Every branch of `begin_scan` leaves `src_idx` and `base_url` exactly
as they were: the only field `begin_scan` ever writes is `src_rows`. -/
theorem begin_scan_preserves (opts : List (String × String))
    (fetch : HttpRequest → Except String String)
    (parse : String → Except String Json) (st : FdwState) :
    (begin_scan opts fetch parse st).2.src_idx = st.src_idx ∧
    (begin_scan opts fetch parse st).2.base_url = st.base_url := by
  unfold begin_scan
  cases h1 : require opts "sheet_id" with
  | error e => simp [h1]
  | ok sheet =>
    cases h2 : fetch (mkRequest st.base_url sheet) with
    | error e => simp [h1, h2]
    | ok body =>
      cases h3 : stripLeading respMarker body.data with
      | none => simp [h1, h2, h3]
      | some rest =>
        cases h4 : parse (String.mk rest) with
        | error e => simp [h1, h2, h3, h4]
        | ok j =>
          cases h5 : j.pointer "/table/rows" with
          | none => simp [h1, h2, h3, h4, h5]
          | some v =>
            cases h6 : v.asArray with
            | none => simp [h1, h2, h3, h4, h5, h6]
            | some rows => simp [h1, h2, h3, h4, h5, h6]

/-- When `begin_scan` returns an error, the state is returned untouched:
no error path assigns to `src_rows`. -/
theorem begin_scan_err_state (opts : List (String × String))
    (fetch : HttpRequest → Except String String)
    (parse : String → Except String Json) (st : FdwState) (e : String)
    (he : (begin_scan opts fetch parse st).1 = BeginOutcome.err e) :
    (begin_scan opts fetch parse st).2 = st := by
  unfold begin_scan at he ⊢
  cases h1 : require opts "sheet_id" with
  | error e2 => simp [h1]
  | ok sheet =>
    simp only [h1] at he
    cases h2 : fetch (mkRequest st.base_url sheet) with
    | error e2 => simp [h1, h2]
    | ok body =>
      simp only [h2] at he
      cases h3 : stripLeading respMarker body.data with
      | none => simp [h1, h2, h3]
      | some rest =>
        simp only [h3] at he
        cases h4 : parse (String.mk rest) with
        | error e2 => simp [h1, h2, h3, h4]
        | ok j =>
          simp only [h4] at he
          cases h5 : j.pointer "/table/rows" with
          | none => simp [h1, h2, h3, h4, h5]
          | some v =>
            simp only [h5] at he
            cases h6 : v.asArray with
            | none => simp [h6] at he
            | some rows => simp [h6] at he

/-- The outcome and the fetched rows of `begin_scan` depend on the state
only through `base_url`: two states with the same `base_url` get the same
outcome and, on success, the same fresh row set. -/
theorem begin_scan_det (opts : List (String × String))
    (fetch : HttpRequest → Except String String)
    (parse : String → Except String Json) (st st2 : FdwState)
    (hb : st2.base_url = st.base_url) :
    (begin_scan opts fetch parse st2).1 = (begin_scan opts fetch parse st).1 ∧
    ((begin_scan opts fetch parse st).1 = BeginOutcome.ok →
      (begin_scan opts fetch parse st2).2.src_rows =
        (begin_scan opts fetch parse st).2.src_rows) := by
  unfold begin_scan
  rw [hb]
  cases h1 : require opts "sheet_id" with
  | error e => simp [h1]
  | ok sheet =>
    cases h2 : fetch (mkRequest st.base_url sheet) with
    | error e => simp [h1, h2]
    | ok body =>
      cases h3 : stripLeading respMarker body.data with
      | none => simp [h1, h2, h3]
      | some rest =>
        cases h4 : parse (String.mk rest) with
        | error e => simp [h1, h2, h3, h4]
        | ok j =>
          cases h5 : j.pointer "/table/rows" with
          | none => simp [h1, h2, h3, h4, h5]
          | some v =>
            cases h6 : v.asArray with
            | none => simp [h1, h2, h3, h4, h5, h6]
            | some rows => simp [h1, h2, h3, h4, h5, h6]

/-- The three supported column types never make the cell mapper abort. -/
theorem mapCell_supported (name : String) (oid : TypeOid) (src : Json)
    (h : oid = TypeOid.i64 ∨ oid = TypeOid.string ∨ oid = TypeOid.date) :
    ∃ oc, mapCell name oid src = Except.ok oc := by
  rcases h with h | h | h <;> subst h <;> exact ⟨_, rfl⟩

/-- The column loop never aborts when every requested column has a
supported type. -/
theorem iterRow_supported (cols : List Column) (r : Json)
    (h : ∀ c ∈ cols, c.oid = TypeOid.i64 ∨ c.oid = TypeOid.string ∨
      c.oid = TypeOid.date) :
    ∃ cells, iterRow cols r = Except.ok cells := by
  induction cols with
  | nil => exact ⟨[], rfl⟩
  | cons c rest ih =>
    obtain ⟨cells, hrest⟩ := ih fun x hx => h x (by simp [hx])
    unfold iterRow
    cases r.pointer (cellPath c.num) with
    | none => exact ⟨none :: cells, by simp [hrest, Except.map]⟩
    | some src =>
      obtain ⟨oc, hc⟩ := mapCell_supported c.name c.oid src (h c (by simp))
      exact ⟨oc :: cells, by simp [hc, hrest, Except.map]⟩

/-- With supported column types, the number of rows `iter_scan` produces
from a state is the number of rows left beyond the cursor (up to the
observation fuel). -/
theorem countProduced_eq (cols : List Column)
    (hsup : ∀ c ∈ cols, c.oid = TypeOid.i64 ∨ c.oid = TypeOid.string ∨
      c.oid = TypeOid.date) (fuel : Nat) :
    ∀ st : FdwState,
      countProduced cols st fuel = min fuel (st.src_rows.length - st.src_idx) := by
  induction fuel with
  | zero => intro st; simp [countProduced]
  | succ fuel ih =>
    intro st
    by_cases hle : st.src_rows.length ≤ st.src_idx
    · have hdone : iter_scan cols st = (IterOutcome.done, st) := by
        simp [iter_scan, hle]
      simp only [countProduced, hdone]
      omega
    · obtain ⟨cells, hrow⟩ :=
        iterRow_supported cols (st.src_rows.getD st.src_idx Json.null) hsup
      have hstep : iter_scan cols st =
          (IterOutcome.row cells, { st with src_idx := st.src_idx + 1 }) := by
        unfold iter_scan
        rw [if_neg hle, hrow]
      simp only [countProduced, hstep, ih]
      omega

/-! Claim theorems. -/

/-- C4: in `iter_scan`, when the requested column type is 64-bit integer
and the raw value at the column's position is present but not numeric,
the mapping fails to produce a cell (no type coercion is attempted), and
likewise a string column with a present non-string raw value: in both
cases the per-cell conversion yields no cell rather than coercing. -/
theorem c4_strict_mapping (name : String) (v w : Json)
    (hv : ∀ n : Int, v ≠ Json.num n) (hw : ∀ s : String, w ≠ Json.str s) :
    mapCell name TypeOid.i64 v = Except.ok none ∧
    mapCell name TypeOid.string w = Except.ok none := by
  refine ⟨?_, ?_⟩
  · cases v with
    | num n => exact absurd rfl (hv n)
    | null => rfl
    | bool b => rfl
    | str s => rfl
    | arr l => rfl
    | obj f => rfl
  · cases w with
    | str s => exact absurd rfl (hw s)
    | null => rfl
    | bool b => rfl
    | num n => rfl
    | arr l => rfl
    | obj f => rfl

/-- C4 witness: the numeric-looking string `"5"` is not coerced for an
I64 column, and the number `5` is not coerced for a string column. -/
theorem c4_strict_mapping_witness :
    mapCell "col" TypeOid.i64 (Json.str "5") = Except.ok none ∧
    mapCell "col" TypeOid.string (Json.num 5) = Except.ok none :=
  c4_strict_mapping "col" (Json.str "5") (Json.num 5)
    (fun n h => by cases h) (fun s h => by cases h)

/-- C6: for every source row and requested columns whose cell position
`(ordinal − 1)` does not resolve in the row (row shorter than expected,
or a null entry at that position), the column loop emits an absent cell
for each such column and raises no error; a present explicit null value
also maps to an absent cell for each supported type. -/
theorem c6_absent_position (cols : List Column) (r : Json) (name : String)
    (habs : ∀ c ∈ cols, Json.pointer r (cellPath c.num) = none) :
    iterRow cols r = Except.ok (cols.map fun _ => none) ∧
    mapCell name TypeOid.i64 Json.null = Except.ok none ∧
    mapCell name TypeOid.string Json.null = Except.ok none ∧
    mapCell name TypeOid.date Json.null = Except.ok none := by
  refine ⟨?_, rfl, rfl, rfl⟩
  induction cols with
  | nil => rfl
  | cons c rest ih =>
    have hc := habs c (by simp)
    have hrest := ih fun x hx => habs x (by simp [hx])
    unfold iterRow
    simp [hc, hrest, Except.map]

/-- C6 witness: a column whose ordinal points one past the end of a
two-cell row receives an absent cell and no error. -/
theorem c6_absent_position_witness :
    iterRow [⟨3, "x", TypeOid.i64⟩] exRow = Except.ok [none] ∧
    mapCell "x" TypeOid.i64 Json.null = Except.ok none ∧
    mapCell "x" TypeOid.string Json.null = Except.ok none ∧
    mapCell "x" TypeOid.date Json.null = Except.ok none :=
  c6_absent_position [⟨3, "x", TypeOid.i64⟩] exRow "x"
    (fun c hc => by rw [List.mem_singleton] at hc; subst hc; rfl)

/-- C7: a date column never aborts the scan — the cell conversion
succeeds for every raw value, a non-string raw value yields an absent
cell, a string not matching the `Date(y,m,d)` pattern makes the decoder
yield no value (not an error), and a parse-step failure (here: the
adjusted day overflowing the month) also yields no value. -/
theorem c7_date_leniency (name : String) (v w : Json) (s : String)
    (hw : Json.asStr w = none) (hs : findCaptures s.data = none) :
    (∃ oc, mapCell name TypeOid.date v = Except.ok oc) ∧
    mapCell name TypeOid.date w = Except.ok none ∧
    parse_date_from_interface s = none ∧
    parse_date_from_interface "Date(2023,12,31)" = none := by
  refine ⟨⟨_, rfl⟩, ?_, ?_, by decide⟩
  · have h1 : mapCell name TypeOid.date w =
        Except.ok (parse_date_from_interface (Json.asStr w |>.getD "")) := rfl
    rw [h1, hw]
    rfl
  · unfold parse_date_from_interface
    rw [hs]

/-- C7 witness: a numeric raw value, a boolean raw value and a
non-matching string all degrade to an absent cell or no decoded value. -/
theorem c7_date_leniency_witness :
    (∃ oc, mapCell "d" TypeOid.date (Json.num 7) = Except.ok oc) ∧
    mapCell "d" TypeOid.date (Json.bool true) = Except.ok none ∧
    parse_date_from_interface "nope" = none ∧
    parse_date_from_interface "Date(2023,12,31)" = none :=
  c7_date_leniency "d" (Json.num 7) (Json.bool true) "nope" rfl rfl

/-- C9: once the cursor has reached the row-set length, `iter_scan`
signals no-more-rows and leaves the state untouched, and a repeated call
does the same — exhaustion is idempotent. -/
theorem c9_exhaustion_idempotent (cols : List Column) (st : FdwState)
    (h : st.src_rows.length ≤ st.src_idx) :
    iter_scan cols st = (IterOutcome.done, st) ∧
    iter_scan cols (iter_scan cols st).2 = (IterOutcome.done, st) := by
  have h1 : iter_scan cols st = (IterOutcome.done, st) := by
    unfold iter_scan
    rw [if_pos h]
  exact ⟨h1, by rw [h1]; exact h1⟩

/-- C9 witness: the post-`end_scan` state is exhausted and stays so
across repeated `iter_scan` calls. -/
theorem c9_exhaustion_idempotent_witness :
    iter_scan [] exAfterEnd = (IterOutcome.done, exAfterEnd) ∧
    iter_scan [] (iter_scan [] exAfterEnd).2 = (IterOutcome.done, exAfterEnd) :=
  c9_exhaustion_idempotent [] exAfterEnd (by decide)

/-- C10: `init` succeeds for every options bag — the base URL falls back
to the fixed default endpoint when absent and no option is required — and
the required `sheet_id` option is checked only in `begin_scan`, which
fails with the MissingOption error when it is absent. -/
theorem c10_init_total (opts : List (String × String)) :
    (init opts).2 = Except.ok () ∧
    (opts.lookup "base_url" = none → (init opts).1.base_url = defaultBaseUrl) ∧
    (∀ (fetch : HttpRequest → Except String String)
      (parse : String → Except String Json) (st : FdwState),
      opts.lookup "sheet_id" = none →
      (begin_scan opts fetch parse st).1 =
        BeginOutcome.err (missingOptionMsg "sheet_id")) := by
  refine ⟨rfl, ?_, ?_⟩
  · intro h
    simp [init, require_or, h]
  · intro fetch parse st h
    unfold begin_scan
    simp [require, h]

/-- C10 witness: with no options at all, `init` succeeds with the default
endpoint and `begin_scan` fails with the MissingOption error. -/
theorem c10_init_total_witness :
    (init []).2 = Except.ok () ∧
    (init []).1.base_url = defaultBaseUrl ∧
    (begin_scan [] exFetch exParse exInit).1 =
      BeginOutcome.err (missingOptionMsg "sheet_id") :=
  ⟨(c10_init_total []).1, (c10_init_total []).2.1 rfl,
    (c10_init_total []).2.2 exFetch exParse exInit rfl⟩

/-- C8: when the fetched response body lacks the fixed textual prefix,
`begin_scan` fails with the FormatError `invalid response` and the state
is returned untouched; more generally no error path of `begin_scan`
assigns to `src_rows` (the Row Store stays empty if it was empty). -/
theorem c8_missing_marker (opts : List (String × String))
    (fetch : HttpRequest → Except String String)
    (parse : String → Except String Json) (st : FdwState) :
    (∀ e, (begin_scan opts fetch parse st).1 = BeginOutcome.err e →
      (begin_scan opts fetch parse st).2 = st) ∧
    (∀ sheet body, opts.lookup "sheet_id" = some sheet →
      fetch (mkRequest st.base_url sheet) = Except.ok body →
      stripLeading respMarker body.data = none →
      begin_scan opts fetch parse st = (BeginOutcome.err "invalid response", st)) := by
  constructor
  · intro e he
    exact begin_scan_err_state opts fetch parse st e he
  · intro sheet body hlk hf hs
    unfold begin_scan
    simp only [require, hlk, hf, hs]

/-- C8 witness: a body without the prefix makes `begin_scan` fail with
`invalid response`, leaving the freshly initialised (empty) state as
it was. -/
theorem c8_missing_marker_witness :
    begin_scan exOpts exNoPrefixFetch exParse exInit =
      (BeginOutcome.err "invalid response", exInit) :=
  (c8_missing_marker exOpts exNoPrefixFetch exParse exInit).2
    "sheet1" "nope" rfl rfl rfl

/-- C1 counterexample: a first scan consumes its one row, `end_scan`
closes it, and a fresh `begin_scan` succeeds — yet the cursor is 1, not
0, because neither `begin_scan` nor `end_scan` ever writes `src_idx`. -/
theorem c1_counterexample :
    (iter_scan [] exScan1).1 = IterOutcome.row [] ∧
    (begin_scan exOpts exFetch exParse exAfterEnd).1 = BeginOutcome.ok ∧
    (begin_scan exOpts exFetch exParse exAfterEnd).2.src_idx = 1 :=
  ⟨rfl, rfl, rfl⟩

/-- C1 (amended): a successful `begin_scan` replaces `src_rows` with the
freshly fetched row set — determined by the options, the collaborators
and `base_url` alone, with no leakage from the previous rows — but leaves
the cursor exactly as it was rather than resetting it to 0; the cursor is
0 only because `init` creates the state that way. -/
theorem c1_amended (opts : List (String × String))
    (fetch : HttpRequest → Except String String)
    (parse : String → Except String Json) (st st2 : FdwState)
    (hb : st2.base_url = st.base_url)
    (hok : (begin_scan opts fetch parse st).1 = BeginOutcome.ok) :
    (begin_scan opts fetch parse st).2.src_idx = st.src_idx ∧
    (begin_scan opts fetch parse st2).1 = BeginOutcome.ok ∧
    (begin_scan opts fetch parse st2).2.src_rows =
      (begin_scan opts fetch parse st).2.src_rows ∧
    (init opts).1.src_idx = 0 := by
  obtain ⟨hout, hrows⟩ := begin_scan_det opts fetch parse st st2 hb
  exact ⟨(begin_scan_preserves opts fetch parse st).1,
    hout.trans hok, hrows hok, rfl⟩

/-- C1 witness: the first scan from the freshly initialised state keeps
its cursor (0) and stores the fetched row set. -/
theorem c1_amended_witness :
    (begin_scan exOpts exFetch exParse exInit).2.src_idx = exInit.src_idx ∧
    (begin_scan exOpts exFetch exParse exInit).1 = BeginOutcome.ok ∧
    (begin_scan exOpts exFetch exParse exInit).2.src_rows =
      (begin_scan exOpts exFetch exParse exInit).2.src_rows ∧
    (init exOpts).1.src_idx = 0 :=
  c1_amended exOpts exFetch exParse exInit exInit rfl rfl

/-- C5 counterexample: the second `begin_scan` of the `exAfterEnd` trace
succeeds and fetches one record, yet zero `iter_scan` calls produce a row
before the first no-more-rows signal, because the stale cursor (1) was
never reset. -/
theorem c5_counterexample :
    (begin_scan exOpts exFetch exParse exAfterEnd).1 = BeginOutcome.ok ∧
    (begin_scan exOpts exFetch exParse exAfterEnd).2.src_rows.length = 1 ∧
    countProduced [] (begin_scan exOpts exFetch exParse exAfterEnd).2 10 = 0 :=
  ⟨rfl, rfl, rfl⟩

/-- C5 (amended): for any successful `begin_scan` and requested columns
of supported types, the number of `iter_scan` calls that produce a row
before the first no-more-rows signal equals the number of fetched records
minus the cursor value at the time of the `begin_scan` call — which is
the fetched count exactly when that cursor was 0, as after `init`. -/
theorem c5_amended (cols : List Column) (opts : List (String × String))
    (fetch : HttpRequest → Except String String)
    (parse : String → Except String Json) (st : FdwState)
    (hsup : ∀ c ∈ cols, c.oid = TypeOid.i64 ∨ c.oid = TypeOid.string ∨
      c.oid = TypeOid.date)
    (hok : (begin_scan opts fetch parse st).1 = BeginOutcome.ok)
    (fuel : Nat)
    (hfuel : (begin_scan opts fetch parse st).2.src_rows.length ≤ fuel) :
    countProduced cols (begin_scan opts fetch parse st).2 fuel =
      (begin_scan opts fetch parse st).2.src_rows.length - st.src_idx := by
  rw [countProduced_eq cols hsup fuel _,
    (begin_scan_preserves opts fetch parse st).1]
  omega

/-- C5 witness: the first scan after `init` produces exactly as many rows
as were fetched. -/
theorem c5_amended_witness :
    countProduced [⟨1, "id", TypeOid.i64⟩]
        (begin_scan exOpts exFetch exParse exInit).2 1 =
      (begin_scan exOpts exFetch exParse exInit).2.src_rows.length -
        exInit.src_idx :=
  c5_amended [⟨1, "id", TypeOid.i64⟩] exOpts exFetch exParse exInit
    (by decide) rfl 1 (by decide)

/-- C3 counterexample: a response whose parsed body carries a non-array
value at `/table/rows` makes `begin_scan` terminate abnormally — the
`unwrap()` panic — instead of returning an error value. -/
theorem c3_counterexample :
    (begin_scan exOpts exFetch exNonArrayParse exInit).1 =
      BeginOutcome.crash :=
  rfl

/-- C3 (amended): `begin_scan` either succeeds or returns an error value
whenever every parse result carries `/table/rows` that is absent or an
array; the missing case — `/table/rows` present but not an array — is
exactly the one where it panics instead. -/
theorem c3_amended (opts : List (String × String))
    (fetch : HttpRequest → Except String String)
    (parse : String → Except String Json) (st : FdwState)
    (hp : ∀ s j, parse s = Except.ok j →
      Json.pointer j "/table/rows" = none ∨
      ∃ l, Json.pointer j "/table/rows" = some (Json.arr l)) :
    (begin_scan opts fetch parse st).1 ≠ BeginOutcome.crash := by
  unfold begin_scan
  cases h1 : require opts "sheet_id" with
  | error e => simp [h1]
  | ok sheet =>
    cases h2 : fetch (mkRequest st.base_url sheet) with
    | error e => simp [h1, h2]
    | ok body =>
      cases h3 : stripLeading respMarker body.data with
      | none => simp [h1, h2, h3]
      | some rest =>
        cases h4 : parse (String.mk rest) with
        | error e => simp [h1, h2, h3, h4]
        | ok j =>
          rcases hp _ j h4 with hnone | ⟨l, harr⟩
          · simp [h1, h2, h3, h4, hnone]
          · simp [h1, h2, h3, h4, harr, Json.asArray]

/-- C3 witness: with the well-formed parse result, `begin_scan` does not
terminate abnormally. -/
theorem c3_amended_witness :
    (begin_scan exOpts exFetch exParse exInit).1 ≠ BeginOutcome.crash :=
  c3_amended exOpts exFetch exParse exInit
    (fun s j h => by
      injection h with h2
      subst h2
      exact Or.inr ⟨[exRow], rfl⟩)

/-- C2 counterexample: the input `Date(2023,12,10)` has the documented
shape, but incrementing the month yields 13, the formatted string
`2023-13-11` names no calendar date, and the decoder yields no value —
refuting the claim that every such input yields a calendar date. -/
theorem c2_counterexample :
    parse_date_from_interface "Date(2023,12,10)" = none := by
  decide

/-- C2 (amended): for every input of the form
`Date(<4-digit year>,<1-2 digit month>,<1-2 digit day>)`, the decoder
adds one to the month and to the day, formats the triple zero-padded as
`YYYY-MM-DD`, and yields the corresponding calendar date exactly when the
incremented month and day form one (no value otherwise); in particular
`Date(2023,5,10)` yields 2023-06-11. -/
theorem c2_amended (ys ms ds : List Char)
    (hy4 : ys.length = 4) (hyd : ∀ c ∈ ys, c.isDigit)
    (hm12 : ms.length = 1 ∨ ms.length = 2) (hmd : ∀ c ∈ ms, c.isDigit)
    (hd12 : ds.length = 1 ∨ ds.length = 2) (hdd : ∀ c ∈ ds, c.isDigit) :
    parse_date_from_interface (String.mk ('D' :: 'a' :: 't' :: 'e' :: '(' ::
        (ys ++ ',' :: (ms ++ ',' :: (ds ++ [')']))))) =
      (if digitsVal ms + 1 ≤ 12 ∧
          digitsVal ds + 1 ≤ daysInMonth (digitsVal ys) (digitsVal ms + 1) then
        some (Cell.date ⟨digitsVal ys, digitsVal ms + 1, digitsVal ds + 1⟩)
      else none) ∧
    parse_date_from_interface "Date(2023,5,10)" =
      some (Cell.date ⟨2023, 6, 11⟩) :=
  ⟨parse_date_from_interface_shaped ys ms ds hy4 hyd hm12 hmd hd12 hdd,
    by decide⟩

/-- C2 witness: the concrete input `Date(2023,5,10)` yields the calendar
date 2023-06-11 (month 5→6, day 10→11). -/
theorem c2_amended_witness :
    parse_date_from_interface "Date(2023,5,10)" =
      some (Cell.date ⟨2023, 6, 11⟩) :=
  (c2_amended ['2', '0', '2', '3'] ['5'] ['1', '0'] (by decide) (by decide)
    (by decide) (by decide) (by decide) (by decide)).2

end SheetsFdw
